import Mathlib

set_option maxRecDepth 10000

/-!
Shallow embedding of the PySysInfo EDID decoder and device-path resolver,
together with proofs about the claims of the specification.

Python byte strings are modelled as `List Nat`, Python text as Lean `String`
(lists of characters), Python `None`/values as `Option`, and raising of
exceptions as `Except PyErr`.  The only float-typed field of the pydantic
models (`aspect_ratio`, never assigned by the code here) is modelled as an
exact rational (`ℚ`).
-/

/-- A Python `bytes` object: a list of byte values. -/
abbrev ByteStr := List Nat

/-- The Python exceptions the translated code can raise. -/
inductive PyErr where
  | indexError
  | valueError
  | unicodeDecodeError
  | zeroDivisionError
  | attributeError
  deriving DecidableEq, Repr

/-- Python slice `data[a:b]` (clamping, never raises). -/
def pySlice (data : ByteStr) (a b : Nat) : ByteStr :=
  (data.drop a).take (b - a)

/-- Python indexing `data[i]`: raises `IndexError` out of range. -/
def pyIdx (data : ByteStr) (i : Nat) : Except PyErr Nat :=
  match data[i]? with
  | some b => .ok b
  | none => .error .indexError

/-- Python `int.from_bytes(data, byteorder="big")`. -/
def intFromBytesBE (data : ByteStr) : Nat :=
  data.foldl (fun acc b => acc * 256 + b) 0

/-- Python `str.strip()` whitespace set (ASCII part). -/
def pyIsSpace (c : Char) : Bool :=
  c = ' ' || c = '\t' || c = '\n' || c = '\r' || c = '\x0b' || c = '\x0c'

/-- Python `str.strip()` on a character list. -/
def pyStripChars (l : List Char) : List Char :=
  ((l.dropWhile pyIsSpace).reverse.dropWhile pyIsSpace).reverse

/-- Python `str.strip()`. -/
def pyStrip (s : String) : String :=
  ⟨pyStripChars s.data⟩

/-- Uppercase hexadecimal digit for a value < 16. -/
def hexDigitU (n : Nat) : Char :=
  if n < 10 then Char.ofNat (48 + n) else Char.ofNat (55 + n)

/-- Lowercase hexadecimal digit for a value < 16. -/
def hexDigitL (n : Nat) : Char :=
  if n < 10 then Char.ofNat (48 + n) else Char.ofNat (87 + n)

/-- Digits of `n` in base `base`, mapped through `digit`; `fuel` bounds the
recursion depth (any fuel above `n` is enough, since `n / base < n`). -/
def natDigitsAux (digit : Nat → Char) (base : Nat) : Nat → Nat → List Char
  | 0, n => [digit n]
  | fuel + 1, n =>
    if n < base then [digit n]
    else natDigitsAux digit base fuel (n / base) ++ [digit (n % base)]

/-- Uppercase hexadecimal digits of `n` (Python `f"{n:X}"`). -/
def natToHexU (n : Nat) : List Char :=
  natDigitsAux hexDigitU 16 n n

/-- Lowercase hexadecimal digits of `n` (as in Python `hex(n)` after the `0x`). -/
def natToHexL (n : Nat) : List Char :=
  natDigitsAux hexDigitL 16 n n

/-- Decimal digits of `n` (Python `str(n)` for naturals). -/
def natToDec (n : Nat) : List Char :=
  natDigitsAux (fun d => Char.ofNat (48 + d)) 10 n n

/-- Value of one hexadecimal digit character, if it is one. -/
def hexDigitVal (c : Char) : Option Nat :=
  if c.isDigit then some (c.toNat - 48)
  else if 'a' ≤ c ∧ c ≤ 'f' then some (c.toNat - 87)
  else if 'A' ≤ c ∧ c ≤ 'F' then some (c.toNat - 55)
  else none

/-- Whether a character is a hexadecimal digit. -/
def isHexDig (c : Char) : Bool :=
  (hexDigitVal c).isSome

/-- Numeric value of a string of decimal digit characters. -/
def charsToDec (l : List Char) : Nat :=
  l.foldl (fun a c => a * 10 + (c.toNat - 48)) 0

/-- Numeric value of a string of hexadecimal digit characters. -/
def charsToHex (l : List Char) : Nat :=
  l.foldl (fun a c => a * 16 + (hexDigitVal c).getD 0) 0

namespace Edid
/-!
Model of `parse_edid` from `src/pysysinfo/dumps/common/edid.py` against the
pydantic models of `models/display_models.py`.

`models/display_models.py` declares no `year` field on `DisplayModuleInfo`,
no `interface` field, and no `bit_depth` field on `ResolutionInfo`.  Under
pydantic's default configuration (no `extra="allow"` anywhere in the
repository), assigning an undeclared attribute on a model instance raises
`ValueError(... object has no field ...)`.
-/

/-- The `ResolutionInfo` pydantic model, with exactly the fields declared in
`models/display_models.py`. -/
structure ResolutionInfo where
  width : Option Int := none
  height : Option Int := none
  refresh_rate : Option Int := none
  aspect_ratio : Option ℚ := none
  aspect_ratio_real : Option String := none
  aspect_ratio_friendly : Option String := none
  deriving DecidableEq, Repr

/-- The `DisplayModuleInfo` pydantic model, with exactly the fields declared
in `models/display_models.py`; the `resolution` field has
`Field(default_factory=ResolutionInfo)`, so a fresh module starts with a
present empty `ResolutionInfo`. -/
structure DisplayModuleInfo where
  name : Option String := none
  parent_gpu : Option String := none
  device_id : Option String := none
  hardware_id : Option String := none
  device_path : Option String := none
  resolution : Option ResolutionInfo := some {}
  inches : Option Int := none
  orientation : Option String := none
  connection_type : Option String := none
  vendor_id : Option String := none
  product_id : Option String := none
  serial_number : Option String := none
  manufacturer_code : Option String := none
  deriving DecidableEq, Repr

/-- `parse_edid` from `common/edid.py`.  After `module = DisplayModuleInfo()`
the next statement is `module.year = edid_data[0x11] + 1990`: its right-hand
side is evaluated first and indexes byte 0x11 (an `IndexError` when the
input is shorter than 0x12 bytes), and the assignment itself then raises
pydantic `ValueError`, because `DisplayModuleInfo` declares no `year` field.
The manufacturer-code, input-type and descriptor-loop statements further
down are unreachable, so the function raises on every input and never
returns a module. -/
def parse_edid (edid_data : ByteStr) : Except PyErr DisplayModuleInfo :=
  match pyIdx edid_data 0x11 with
  | .error e => .error e
  | .ok _ => .error .valueError

end Edid

/-- Python `int.from_bytes(data, byteorder="little")`
(`struct.unpack("<H", ...)` for two bytes). -/
def intFromBytesLE (data : ByteStr) : Nat :=
  data.foldr (fun b acc => acc * 256 + b) 0

instance {ε α : Type _} [DecidableEq ε] [DecidableEq α] : DecidableEq (Except ε α) := fun x y =>
  match x, y with
  | .error a, .error b =>
    if h : a = b then isTrue (by rw [h]) else isFalse (fun hh => h (Except.error.inj hh))
  | .ok a, .ok b =>
    if h : a = b then isTrue (by rw [h]) else isFalse (fun hh => h (Except.ok.inj hh))
  | .error _, .ok _ => isFalse (fun hh => Except.noConfusion hh)
  | .ok _, .error _ => isFalse (fun hh => Except.noConfusion hh)

/-- Python `str.split(sep)` for a one-character separator. -/
def splitOnChar (sep : Char) : List Char → List (List Char)
  | [] => [[]]
  | c :: cs =>
    let r := splitOnChar sep cs
    if c == sep then [] :: r
    else
      match r with
      | [] => [[c]]
      | h :: t => (c :: h) :: t

namespace WinDisplay
/-!
Model of `src/pysysinfo/dumps/windows/display.py` (EDID part).
-/

/-- `_EDID_SERIAL_MARKER`. -/
def serialMarker : ByteStr := [0x00, 0x00, 0x00, 0xFF]

/-- `_EDID_NAME_MARKER`. -/
def nameMarker : ByteStr := [0x00, 0x00, 0x00, 0xFC]

/-- Lower bound for the first continuation byte of a multi-byte UTF-8
sequence led by `b`. -/
def utf8Cont1Lo (b : Nat) : Nat :=
  if b = 0xE0 then 0xA0 else if b = 0xF0 then 0x90 else 0x80

/-- Upper bound for the first continuation byte of a multi-byte UTF-8
sequence led by `b`. -/
def utf8Cont1Hi (b : Nat) : Nat :=
  if b = 0xED then 0x9F else if b = 0xF4 then 0x8F else 0xBF

/-- One step of UTF-8 decoding with `errors="ignore"`: given the first byte
and the remaining bytes, the decoded character (when the sequence is valid
and complete) and how many further bytes are consumed (the maximal valid
subpart is skipped on error, as CPython does). -/
def utf8Step (b : Nat) (rest : ByteStr) : Option Char × Nat :=
  if b < 0x80 then (some (Char.ofNat b), 0)
  else if 0xC2 ≤ b ∧ b ≤ 0xDF then
    match rest with
    | c1 :: _ =>
      if 0x80 ≤ c1 ∧ c1 ≤ 0xBF then
        (some (Char.ofNat (((b &&& 0x1F) <<< 6) ||| (c1 &&& 0x3F))), 1)
      else (none, 0)
    | [] => (none, 0)
  else if 0xE0 ≤ b ∧ b ≤ 0xEF then
    match rest with
    | c1 :: c2 :: _ =>
      if utf8Cont1Lo b ≤ c1 ∧ c1 ≤ utf8Cont1Hi b then
        if 0x80 ≤ c2 ∧ c2 ≤ 0xBF then
          (some (Char.ofNat ((((b &&& 0x0F) <<< 12) ||| ((c1 &&& 0x3F) <<< 6)) ||| (c2 &&& 0x3F))), 2)
        else (none, 1)
      else (none, 0)
    | [c1] =>
      if utf8Cont1Lo b ≤ c1 ∧ c1 ≤ utf8Cont1Hi b then (none, 1) else (none, 0)
    | [] => (none, 0)
  else if 0xF0 ≤ b ∧ b ≤ 0xF4 then
    match rest with
    | c1 :: c2 :: c3 :: _ =>
      if utf8Cont1Lo b ≤ c1 ∧ c1 ≤ utf8Cont1Hi b then
        if 0x80 ≤ c2 ∧ c2 ≤ 0xBF then
          if 0x80 ≤ c3 ∧ c3 ≤ 0xBF then
            (some (Char.ofNat ((((b &&& 0x07) <<< 18) ||| ((c1 &&& 0x3F) <<< 12)) |||
                               (((c2 &&& 0x3F) <<< 6) ||| (c3 &&& 0x3F)))), 3)
          else (none, 2)
        else (none, 1)
      else (none, 0)
    | [c1, c2] =>
      if utf8Cont1Lo b ≤ c1 ∧ c1 ≤ utf8Cont1Hi b then
        if 0x80 ≤ c2 ∧ c2 ≤ 0xBF then (none, 2) else (none, 1)
      else (none, 0)
    | [c1] =>
      if utf8Cont1Lo b ≤ c1 ∧ c1 ≤ utf8Cont1Hi b then (none, 1) else (none, 0)
    | [] => (none, 0)
  else (none, 0)

/-- Python `bytes.decode(errors="ignore")` (UTF-8). -/
def utf8DecodeIgnore : ByteStr → List Char
  | [] => []
  | b :: rest =>
    match utf8Step b rest with
    | (some ch, k) => ch :: utf8DecodeIgnore (rest.drop k)
    | (none, k) => utf8DecodeIgnore (rest.drop k)
termination_by l => l.length
decreasing_by all_goals (simp only [List.length_drop, List.length_cons]; omega)

/-- `_extract_descriptor_text(descriptor, marker)`. -/
def extractDescText (descriptor marker : ByteStr) : Option String :=
  if pySlice descriptor 0 4 ≠ marker then none
  else
    let raw_text := (pySlice descriptor 5 18).takeWhile fun b => !(b == 0x0A)
    let text := pyStrip ⟨utf8DecodeIgnore raw_text⟩
    if text = "" then none else some text

/-- The claim's description of descriptor-text extraction: bytes [5:18)
truncated at the first 0x0A byte, decoded as ASCII with invalid bytes
ignored, trimmed of surrounding whitespace, an empty result treated as
absent.  Stated for comparison with `extractDescText`. -/
def claimDescText (block : ByteStr) : Option String :=
  let payload := (pySlice block 5 18).takeWhile fun b => !(b == 0x0A)
  let text := pyStrip ⟨(payload.filter (· < 128)).map Char.ofNat⟩
  if text = "" then none else some text

/-- `_decode_manufacturer_code(vendor_id)` (`ord('A') - 1 = 64`). -/
def decodeManufacturerCode (vendor_id : Nat) : String :=
  ⟨[Char.ofNat (((vendor_id >>> 10) &&& 0x1F) + 64),
    Char.ofNat (((vendor_id >>> 5) &&& 0x1F) + 64),
    Char.ofNat ((vendor_id &&& 0x1F) + 64)]⟩

/-- The result dict of the Windows `parse_edid`.  The `inches` entry is a
floating-point diagonal computed with `** 0.5`; no claim depends on it and
IEEE floats are outside this embedding, so the record omits it. -/
structure WinEdid where
  manufacturer_code : String
  vendor_id : Nat
  product_id : Nat
  serial : Option String
  name : Option String
  deriving DecidableEq, Repr

/-- Descriptor slot `i` of the loop (base offset 0x48, stride 18). -/
def descriptorAt (edid : ByteStr) (i : Nat) : ByteStr :=
  pySlice edid (0x48 + i * 18) (0x48 + i * 18 + 18)

/-- `parse_edid` from `windows/display.py`: `None` (= the spec's TooShort
marker) for inputs shorter than 128 bytes, a populated dict otherwise.
The serial/name loop keeps the first successful extraction. -/
def parse_edid (edid : ByteStr) : Option WinEdid :=
  if edid.length < 128 then none
  else
    let pair := (List.range 3).foldl
      (fun (acc : Option String × Option String) i =>
        let descriptor := descriptorAt edid i
        ((if acc.1 = none then extractDescText descriptor serialMarker else acc.1),
         (if acc.2 = none then extractDescText descriptor nameMarker else acc.2)))
      (none, none)
    some { manufacturer_code := decodeManufacturerCode (intFromBytesBE (pySlice edid 8 10)),
           vendor_id := intFromBytesBE (pySlice edid 8 10),
           product_id := intFromBytesLE (pySlice edid 10 12),
           serial := pair.1,
           name := pair.2 }

end WinDisplay

namespace LinuxDisplay
/-!
Model of `_parse_edid` from `src/pysysinfo/dumps/linux/display.py`.
-/

/-- `_parse_edid`: as in the canonical decoder, the statement
`module.year = edid_data[0x11] + 1990` right after `module =
DisplayModuleInfo()` indexes byte 0x11 (an `IndexError` when the input is
shorter than 0x12 bytes) and then raises pydantic `ValueError`
(`DisplayModuleInfo` declares no `year` field), so the manufacturer-code
extraction from the slice `edid_data[0x15:0x17]` further down (lines 60-66)
is never reached. -/
def parse_edid (edid_data : ByteStr) : Except PyErr Edid.DisplayModuleInfo :=
  match pyIdx edid_data 0x11 with
  | .error e => .error e
  | .ok _ => .error .valueError

end LinuxDisplay

namespace WinCommon
/-!
Model of `src/pysysinfo/dumps/windows/common.py`.
-/

/-- The literal `ACPI(` that `re.findall(r'ACPI\((.*?)\)', ...)` scans for. -/
def acpiTag : List Char := ['A', 'C', 'P', 'I', '(']

/-- One lazy capture `(.*?)\)`: the characters before the first `)`,
failing when a newline (which `.` does not match) or the end of the
string comes first.  Returns the capture and the rest of the input. -/
def grabParen (l : List Char) : Option (List Char × List Char) :=
  let content := l.takeWhile fun c => !(c == ')' || c == '\n')
  match l.drop content.length with
  | ')' :: rest => some (content, rest)
  | _ => none

/-- `re.findall(r'ACPI\((.*?)\)', raw)`: scan left to right, matches do not
overlap, scanning resumes after each match (or one character further after
a failed attempt). -/
def findAcpi : List Char → List (List Char)
  | [] => []
  | c :: cs =>
    if (c :: cs).take 5 = acpiTag then
      match hg : grabParen ((c :: cs).drop 5) with
      | some (content, rest) => content :: findAcpi rest
      | none => findAcpi cs
    else findAcpi cs
termination_by l => l.length
decreasing_by
  · simp only [grabParen] at hg
    split at hg
    · next heq =>
      simp only [Option.some.injEq, Prod.mk.injEq] at hg
      obtain ⟨hg1, hg2⟩ := hg
      subst hg2
      have hlen := congrArg List.length heq
      simp only [List.length_drop, List.length_cons, List.drop_succ_cons] at hlen ⊢
      omega
    · exact absurd hg (by simp)
  · simp
  · simp

/-- `format_acpi_path` from `windows/common.py`. -/
def format_acpi_path (raw_path : String) : Option String :=
  if raw_path = "" then none
  else
    let segments := findAcpi raw_path.data
    if segments = [] then some raw_path
    else some ("\\" ++ String.intercalate "." (segments.map String.mk))

/-- `re.match(r'PCIROOT\((\d+)\)', seg)`: anchored at the start, one or
more decimal digits, then `)`; trailing text is allowed.  Returns the
decimal value of the digit group. -/
def pciSegRoot (seg : List Char) : Option Nat :=
  if seg.take 8 = "PCIROOT(".data then
    let ds := (seg.drop 8).takeWhile Char.isDigit
    if ds.isEmpty then none
    else if ((seg.drop 8).drop ds.length).head? = some ')' then some (charsToDec ds)
    else none
  else none

/-- `re.match(r'PCI\(([0-9A-Fa-f]+)\)', seg)`: hexadecimal value of the
digit group. -/
def pciSegPci (seg : List Char) : Option Nat :=
  if seg.take 4 = "PCI(".data then
    let ds := (seg.drop 4).takeWhile isHexDig
    if ds.isEmpty then none
    else if ((seg.drop 4).drop ds.length).head? = some ')' then some (charsToHex ds)
    else none
  else none

/-- The body of the segment loop of `format_pci_path`: a `PCIROOT` match is
emitted as `PciRoot(0x{n:X})`, otherwise a `PCI` match as
`Pci(0x{value >> 8:X},0x{value & 0xFF:X})`, otherwise nothing. -/
def formatSegment (seg : List Char) : Option String :=
  match pciSegRoot seg with
  | some val => some ("PciRoot(0x" ++ String.mk (natToHexU val) ++ ")")
  | none =>
    match pciSegPci seg with
    | some full_val =>
      some ("Pci(0x" ++ String.mk (natToHexU (full_val >>> 8)) ++
            ",0x" ++ String.mk (natToHexU (full_val &&& 0xFF)) ++ ")")
    | none => none

/-- `format_pci_path` from `windows/common.py`. -/
def format_pci_path (raw_path : String) : Option String :=
  if raw_path = "" then none
  else
    some (String.intercalate "/" ((splitOnChar '#' raw_path.data).filterMap formatSegment))

end WinCommon

namespace LinuxCommon
/-!
Model of `src/pysysinfo/dumps/linux/common.py`.  The filesystem is an
explicit environment: `readFile` returns the decoded text of a readable
file (`none` models the caught `OSError`/`IOError`), `listDir` the entries
of a listable directory (`none` models a missing directory or a listing
error).
-/

structure SysEnv where
  readFile : String → Option String
  listDir : String → Option (List String)

/-- `os.path.join` for one extra component. -/
def pyJoin (a b : String) : String :=
  if b.data.head? = some '/' then b
  else if a = "" then b
  else if a.data.getLast? = some '/' then a ++ b
  else a ++ "/" ++ b

/-- Python `str.splitlines()` (the `\n` / `\r` / `\r\n` terminators). -/
def pySplitlinesAux : List Char → List Char → List (List Char)
  | acc, [] => if acc.isEmpty then [] else [acc.reverse]
  | acc, '\r' :: '\n' :: rest => acc.reverse :: pySplitlinesAux [] rest
  | acc, '\n' :: rest => acc.reverse :: pySplitlinesAux [] rest
  | acc, '\r' :: rest => acc.reverse :: pySplitlinesAux [] rest
  | acc, c :: rest => pySplitlinesAux (c :: acc) rest

/-- Python `str.splitlines()`. -/
def pySplitlines (s : String) : List String :=
  (pySplitlinesAux [] s.data).map String.mk

/-- Python `str.lower()` (ASCII). -/
def pyLower (s : String) : String := ⟨s.data.map Char.toLower⟩

/-- `line.split("=", 1)[1]` for a line known to contain `=`. -/
def splitEqOnce (l : List Char) : List Char :=
  (l.dropWhile fun c => !(c == '=')).drop 1

/-- The slot-search loop: first line of the uevent text starting (after
lowercasing) with `pci_slot_name=`, split at the first `=`. -/
def findSlot (pci_uevent : String) : Option String :=
  (pySplitlines pci_uevent).findSome? fun line =>
    if (pyLower line).data.take 14 = "pci_slot_name=".data then
      some (String.mk (splitEqOnce line.data))
    else none

/-- Python `int(s, 16)`: optional surrounding whitespace, optional sign,
optional `0x`/`0X` marker, hexadecimal digits with single underscores
between digits (or one directly after the base marker).  `none` models
the `ValueError`. -/
def pyIntHex (s : String) : Option Int :=
  let t := pyStripChars s.data
  let st : Int × List Char :=
    match t with
    | '+' :: r => (1, r)
    | '-' :: r => (-1, r)
    | r => (1, r)
  let pt : Bool × List Char :=
    match st.2 with
    | '0' :: 'x' :: r => (true, r)
    | '0' :: 'X' :: r => (true, r)
    | r => (false, r)
  let t3 := if pt.1 ∧ pt.2.head? = some '_' then pt.2.drop 1 else pt.2
  if t3.isEmpty then none
  else if t3.all (fun c => isHexDig c || c == '_') ∧
          t3.head? ≠ some '_' ∧ t3.getLast? ≠ some '_' ∧
          (t3.zip (t3.drop 1)).all (fun p => !(p.1 == '_' && p.2 == '_')) then
    some (st.1 * (charsToHex (t3.filter fun c => !(c == '_')) : Int))
  else none

/-- Python `hex(n)`. -/
def pyHexInt (n : Int) : String :=
  if n < 0 then "-0x" ++ String.mk (natToHexL (-n).toNat)
  else "0x" ++ String.mk (natToHexL n.toNat)

/-- `_get_address_components(slot_name)`: hex strings of the
`<device>.<function>` suffix, `none` on a parse failure. -/
def getAddressComponents (slot_name : String) : Option (List String) :=
  match (splitOnChar ':' slot_name.data).getLast? with
  | none => none
  | some device_func =>
    let parts := splitOnChar '.' device_func
    let vals := parts.map fun p => pyIntHex (String.mk p)
    if vals.all Option.isSome then
      some (vals.map fun v => pyHexInt (v.getD 0))
    else none

/-- Python string `<` (lexicographic on code points). -/
def charListLt : List Char → List Char → Bool
  | [], [] => false
  | [], _ :: _ => true
  | _ :: _, [] => false
  | a :: as, b :: bs =>
    if a.toNat < b.toNat then true
    else if b.toNat < a.toNat then false
    else charListLt as bs

/-- Python string `<`. -/
def pyStrLt (a b : String) : Bool := charListLt a.data b.data

/-- Stable descending insertion (an equal element stays after the ones
already placed), as `sorted(..., reverse=True)` behaves. -/
def insertDesc (x : String) : List String → List String
  | [] => [x]
  | y :: ys => if pyStrLt y x then x :: y :: ys else y :: insertDesc x ys

/-- `sorted(paths, reverse=True)`. -/
def sortRevPy (l : List String) : List String :=
  l.foldl (fun acc x => insertDesc x acc) []

/-- `"/sys/bus/pci/devices"`. -/
def pciRootDir : String := "/sys/bus/pci/devices"

/-- `pci_from_acpi_linux(device_path)` over an explicit filesystem
environment.  Returns the `(acpi, pci)` pair; Python `None` is `none`. -/
def pci_from_acpi_linux (env : SysEnv) (device_path : String) :
    Option String × Option String :=
  let acpi_path := pyJoin (pyJoin device_path "firmware_node") "path"
  let uevent_path := pyJoin device_path "uevent"
  match env.readFile acpi_path, env.readFile uevent_path with
  | some araw, some uraw =>
    let acpi := pyStrip araw
    let pci_uevent := pyStrip uraw
    if acpi = "" ∨ pci_uevent = "" then (none, none)
    else
      match findSlot pci_uevent with
      | none => (some acpi, some "")
      | some slot =>
        match pyIntHex (String.mk ((splitOnChar ':' slot.data).headD [])) with
        | none => (some acpi, some "")
        | some domain =>
          let pci_path := "PciRoot(" ++ pyHexInt domain ++ ")"
          let own := match getAddressComponents slot with
            | some comps => [String.intercalate "," comps]
            | none => []
          let parents := match env.listDir pciRootDir with
            | none => []
            | some names =>
              names.filterMap fun device_name =>
                match env.listDir (pyJoin pciRootDir device_name) with
                | none => none
                | some entries =>
                  if slot ∈ entries then
                    (getAddressComponents device_name).map (String.intercalate ",")
                  else none
          let sorted := sortRevPy (own ++ parents)
          (some acpi,
           some (sorted.foldl (fun acc comp => acc ++ "/Pci(" ++ comp ++ ")") pci_path))
  | _, _ => (none, none)

end LinuxCommon

/-!
Concrete inputs used by witnesses and counterexamples.
-/

/-- A 128-byte digital-input EDID with vendor `"ABC"`, three timing
descriptors (1920x1080@60, 2560x1440@60, 1920x1080@144) and one dummy
display descriptor. -/
def edidC2 : ByteStr :=
  List.replicate 8 0 ++ [0x04, 0x43] ++ List.replicate 7 0 ++ [34] ++ [0, 0] ++ [0x80] ++
  List.replicate 33 0 ++
  ([0xBC, 0x34, 0x80, 0x50, 0x70, 0x38, 0x2D, 0x40] ++ List.replicate 10 0) ++
  ([0x68, 0x5B, 0x00, 0x28, 0xA0, 0xA0, 0x3C, 0x50] ++ List.replicate 10 0) ++
  ([0x90, 0x7E, 0x80, 0x50, 0x70, 0x38, 0x2D, 0x40] ++ List.replicate 10 0) ++
  ([0, 0, 0, 0x10] ++ List.replicate 14 0) ++ [0, 0]

/-- The same block as `edidC2` but with an analog input-type byte
(offset 0x14 is 0x00, most significant bit 0). -/
def edidC8 : ByteStr :=
  List.replicate 8 0 ++ [0x04, 0x43] ++ List.replicate 7 0 ++ [34] ++ [0, 0] ++ [0x00] ++
  List.replicate 33 0 ++
  ([0xBC, 0x34, 0x80, 0x50, 0x70, 0x38, 0x2D, 0x40] ++ List.replicate 10 0) ++
  ([0x68, 0x5B, 0x00, 0x28, 0xA0, 0xA0, 0x3C, 0x50] ++ List.replicate 10 0) ++
  ([0x90, 0x7E, 0x80, 0x50, 0x70, 0x38, 0x2D, 0x40] ++ List.replicate 10 0) ++
  ([0, 0, 0, 0x10] ++ List.replicate 14 0) ++ [0, 0]

/-- A 128-byte EDID whose first two descriptor blocks both carry the
product-name tag 0xFC (`"ALPHA"` then `"BRAVO"`, space padded) and whose
third carries the serial tag 0xFF (`"SER01"`). -/
def edidC10 : ByteStr :=
  List.replicate 17 0 ++ [34] ++ [0, 0] ++ [0] ++ List.replicate 33 0 ++
  ([0, 0, 0, 0xFC, 0] ++ [65, 76, 80, 72, 65] ++ List.replicate 8 32) ++
  ([0, 0, 0, 0xFC, 0] ++ [66, 82, 65, 86, 79] ++ List.replicate 8 32) ++
  ([0, 0, 0, 0xFF, 0] ++ [83, 69, 82, 48, 49] ++ List.replicate 8 32) ++
  ([0, 0, 0, 0x10] ++ List.replicate 14 0) ++ [0, 0]

/-- A 128-byte EDID with one product-name descriptor whose payload is
`"AB" 0x0A "CD"` followed by space padding. -/
def edidC4 : ByteStr :=
  List.replicate 17 0 ++ [34] ++ [0, 0] ++ [0] ++ List.replicate 33 0 ++
  ([0, 0, 0, 0xFC, 0] ++ [65, 66, 0x0A, 67, 68] ++ List.replicate 8 32) ++
  List.replicate 18 0 ++ List.replicate 18 0 ++
  ([0, 0, 0, 0x10] ++ List.replicate 14 0) ++ [0, 0]

/-- A 128-byte all-zero EDID except for the packed vendor field
`(1 << 10) | (2 << 5) | 3` (the string `"ABC"`) at offset 8; the bytes at
offsets 0x15-0x16 (which the Linux variant reads) are zero. -/
def edidC3 : ByteStr :=
  List.replicate 8 0 ++ [0x04, 0x43] ++ List.replicate 118 0

/-- The packing of three letters as 5-bit groups (A=1 ... Z=26) into one
16-bit value, per the specification. -/
def packManuf (c1 c2 c3 : Char) : Nat :=
  (c1.toNat - 64) * 1024 + (c2.toNat - 64) * 32 + (c3.toNat - 64)

/-- A filesystem environment with no readable files or directories. -/
def envEmpty : LinuxCommon.SysEnv := ⟨fun _ => none, fun _ => none⟩

/-- A filesystem environment for device `/dev0` with an ACPI firmware node
and a uevent naming PCI slot `0000:00:02.0`. -/
def envGfx : LinuxCommon.SysEnv :=
  ⟨fun p =>
      if p = "/dev0/firmware_node/path" then some "\\_SB_.PCI0.GFX0"
      else if p = "/dev0/uevent" then some ("PCI_SLOT_NAME=0000:00:02.0\nDRIVER=i915")
      else none,
   fun _ => none⟩

/-- The 18-byte product-name descriptor of `edidC4` (payload `"AB" 0x0A "CD"`
padded with spaces). -/
def descC4 : ByteStr :=
  [0, 0, 0, 0xFC, 0] ++ [65, 66, 0x0A, 67, 68] ++ List.replicate 8 32

/-- An 18-byte product-name descriptor whose payload is the two-byte UTF-8
sequence 0xC3 0xA9 (the character `é`) followed by space padding: bytes that
are not valid ASCII. -/
def descAcute : ByteStr :=
  [0, 0, 0, 0xFC, 0] ++ [0xC3, 0xA9] ++ List.replicate 11 32

/-- A filesystem environment whose uevent file has no `pci_slot_name=`
line. -/
def envNoSlot : LinuxCommon.SysEnv :=
  ⟨fun p =>
      if p = "/dev0/firmware_node/path" then some "\\_SB_.PCI0"
      else if p = "/dev0/uevent" then some "DRIVER=i915"
      else none,
   fun _ => none⟩

/-- A filesystem environment whose PCI slot name `0000:00:02` has no
`.`-separated function part, so its address yields a single component. -/
def envOneComp : LinuxCommon.SysEnv :=
  ⟨fun p =>
      if p = "/dev0/firmware_node/path" then some "\\_SB_.PCI0"
      else if p = "/dev0/uevent" then some "PCI_SLOT_NAME=0000:00:02"
      else none,
   fun _ => none⟩

/-- A filesystem environment for a device at slot `0000:02:04.0` (address
components `0x4,0x0`) behind the bridge `0000:00:02.0` (address components
`0x2,0x0`): the device's own component string sorts lexicographically above
its parent bridge's. -/
def envLeaf : LinuxCommon.SysEnv :=
  ⟨fun p =>
      if p = "/dev0/firmware_node/path" then some "\\_SB_.PCI0"
      else if p = "/dev0/uevent" then some "PCI_SLOT_NAME=0000:02:04.0"
      else none,
   fun p =>
      if p = "/sys/bus/pci/devices" then some ["0000:00:02.0"]
      else if p = "/sys/bus/pci/devices/0000:00:02.0" then some ["0000:02:04.0"]
      else none⟩

/-!
Shared helper lemmas.
-/

lemma takeWhile_append_all {α : Type _} {p : α → Bool} {l₁ : List α} (l₂ : List α)
    (h : ∀ c ∈ l₁, p c) : (l₁ ++ l₂).takeWhile p = l₁ ++ l₂.takeWhile p := by
  induction l₁ with
  | nil => simp
  | cons x xs ih =>
    have hx : p x := h x (List.mem_cons_self x xs)
    simp [List.takeWhile_cons, hx, ih (fun c hc => h c (List.mem_cons_of_mem _ hc))]

/-!
Claim C9.
-/

/-- C9 (confirmed): for every device path whose `firmware_node/path` file or
`uevent` file is unreadable, the Linux resolver returns a pair with both the
acpi and the pci field absent; the model is a total function, so no
exception escapes. -/
theorem claim_C9 (env : LinuxCommon.SysEnv) (dp : String)
    (h : env.readFile (LinuxCommon.pyJoin (LinuxCommon.pyJoin dp "firmware_node") "path") = none ∨
         env.readFile (LinuxCommon.pyJoin dp "uevent") = none) :
    LinuxCommon.pci_from_acpi_linux env dp = (none, none) := by
  simp only [LinuxCommon.pci_from_acpi_linux]
  rcases h with h | h
  · rw [h]
  · rw [h]
    cases env.readFile (LinuxCommon.pyJoin (LinuxCommon.pyJoin dp "firmware_node") "path") <;> rfl

/-- C9 witness: the environment with no readable files, applied to a
concrete device directory. -/
theorem claim_C9_witness :
    LinuxCommon.pci_from_acpi_linux envEmpty "/sys/devices/pci0000:00/0000:00:02.0" =
      (none, none) :=
  claim_C9 envEmpty "/sys/devices/pci0000:00/0000:00:02.0" (Or.inl rfl)

/-!
Claim C10.
-/

/-- C10 (code_bug): `edidC10` carries two product-name descriptor blocks
(tag 0xFC at offsets 0x36 and 0x48, first two block bytes zero), but the
canonical decoder never scans any descriptor: it raises pydantic
`ValueError` at `module.year` (the model declares no such field) on every
input long enough to index byte 0x11, so no name or serial field is ever
produced, let alone by last-write-wins. -/
theorem claim_C10 :
    pySlice edidC10 0x36 0x3A = [0, 0, 0, 0xFC] ∧
    pySlice edidC10 0x48 0x4C = [0, 0, 0, 0xFC] ∧
    Edid.parse_edid edidC10 = .error .valueError :=
  ⟨by decide, by decide, by decide⟩

/-!
Claim C1.
-/

/-- C1 counterexample: on the empty input the canonical decoder of
`common/edid.py` raises `IndexError` (at `edid_data[0x11]`) instead of
returning a TooShort absence marker, refuting the claim as stated for
that decoder. -/
theorem claim_C1_counterexample :
    Edid.parse_edid [] = .error .indexError := by decide

/-- C1 (corrected): the Windows `parse_edid` returns `None` for every input
shorter than 128 bytes without raising and never returns `None` for longer
inputs; the common decoder has no length check and raises `IndexError` on
short inputs (shown here for inputs shorter than 0x12 bytes) instead of
returning a TooShort marker. -/
theorem claim_C1 :
    (∀ e : ByteStr, e.length < 128 → WinDisplay.parse_edid e = none) ∧
    (∀ e : ByteStr, 128 ≤ e.length → WinDisplay.parse_edid e ≠ none) ∧
    (∀ e : ByteStr, e.length < 0x12 → Edid.parse_edid e = .error .indexError) := by
  refine ⟨?_, ?_, ?_⟩
  · intro e h
    unfold WinDisplay.parse_edid
    rw [if_pos h]
  · intro e h
    unfold WinDisplay.parse_edid
    rw [if_neg (by omega)]
    simp
  · intro e h
    have h17 : e[0x11]? = none := List.getElem?_eq_none (by omega)
    unfold Edid.parse_edid pyIdx
    rw [h17]

/-- C1 witness: the empty input and an all-zero 128-byte input. -/
theorem claim_C1_witness :
    WinDisplay.parse_edid [] = none ∧
    WinDisplay.parse_edid (List.replicate 128 0) ≠ none ∧
    Edid.parse_edid [] = .error .indexError :=
  ⟨claim_C1.1 [] (by decide), claim_C1.2.1 (List.replicate 128 0) (by decide),
   claim_C1.2.2 [] (by decide)⟩

/-!
The canonical and Linux decoders raise on every input that survives the
0x11 index.
-/

lemma parse_valueError (e : ByteStr) (h : 0x12 ≤ e.length) :
    Edid.parse_edid e = .error .valueError := by
  have h17 : e[0x11]? = some (e.get ⟨0x11, by omega⟩) := by
    rw [List.getElem?_eq_getElem (by omega)]
    rfl
  unfold Edid.parse_edid pyIdx
  rw [h17]

lemma linux_parse_valueError (e : ByteStr) (h : 0x12 ≤ e.length) :
    LinuxDisplay.parse_edid e = .error .valueError := by
  have h17 : e[0x11]? = some (e.get ⟨0x11, by omega⟩) := by
    rw [List.getElem?_eq_getElem (by omega)]
    rfl
  unfold LinuxDisplay.parse_edid pyIdx
  rw [h17]

/-!
Claim C2.
-/

/-- C2 (code_bug): the decode never produces a chosen resolution at all —
`parse_edid` raises pydantic `ValueError` at `module.year` on every input
of length at least 128 (indeed at least 0x12), in particular on the
128-byte block `edidC2` holding the claim's three timing descriptors
1920x1080@60, 2560x1440@60 and 1920x1080@144. -/
theorem claim_C2 :
    (∀ e : ByteStr, 128 ≤ e.length → Edid.parse_edid e = .error .valueError) ∧
    Edid.parse_edid edidC2 = .error .valueError :=
  ⟨fun e h => parse_valueError e (by omega), by decide⟩

/-- C2 witness: the general raising statement applied to an all-zero
128-byte input. -/
theorem claim_C2_witness :
    Edid.parse_edid (List.replicate 128 0) = .error .valueError :=
  claim_C2.1 (List.replicate 128 0) (by decide)

/-!
Claim C3.
-/

/-- C3 (code_bug): `edidC3` carries the packed vendor value
`(1 << 10) | (2 << 5) | 3` (the string `"ABC"` per the §4.1 packing) at
offset 8, yet neither decoder returns any manufacturer code: both the
canonical `parse_edid` and the Linux `_parse_edid` raise pydantic
`ValueError` at `module.year` before reaching their manufacturer-code
statements (the Linux variant's offset-0x15 slice is unreachable). -/
theorem claim_C3 :
    intFromBytesBE (pySlice edidC3 0x08 0x0A) = packManuf 'A' 'B' 'C' ∧
    Edid.parse_edid edidC3 = .error .valueError ∧
    LinuxDisplay.parse_edid edidC3 = .error .valueError :=
  ⟨by decide, by decide, by decide⟩

/-!
Claim C8.
-/

/-- C8 (code_bug): `edidC8` is an analog block (input-type byte at offset
0x14 is 0x00, most significant bit 0), but the decode never reaches the
input-type byte: it raises pydantic `ValueError` at `module.year`, so no
module — with or without a chosen resolution — is ever returned. -/
theorem claim_C8 :
    edidC8[0x14]? = some 0x00 ∧
    Edid.parse_edid edidC8 = .error .valueError :=
  ⟨by decide, by decide⟩

/-!
UTF-8 decoding lemmas for claim C4.
-/

lemma utf8_ascii {l : ByteStr} (h : ∀ b ∈ l, b < 128) :
    WinDisplay.utf8DecodeIgnore l = l.map Char.ofNat := by
  induction l with
  | nil => simp [WinDisplay.utf8DecodeIgnore]
  | cons b rest ih =>
    have hb : b < 128 := h b (List.mem_cons_self b rest)
    have hstep : WinDisplay.utf8Step b rest = (some (Char.ofNat b), 0) := by
      unfold WinDisplay.utf8Step
      rw [if_pos hb]
    rw [WinDisplay.utf8DecodeIgnore, hstep]
    dsimp only
    rw [List.drop_zero, List.map_cons, ih (fun x hx => h x (List.mem_cons_of_mem _ hx))]

lemma utf8_c3a9 (l : ByteStr) :
    WinDisplay.utf8DecodeIgnore (0xC3 :: 0xA9 :: l) =
      'é' :: WinDisplay.utf8DecodeIgnore l := by
  conv_lhs => rw [WinDisplay.utf8DecodeIgnore.eq_def]
  rfl

lemma extract_descAcute :
    WinDisplay.extractDescText descAcute WinDisplay.nameMarker = some "é" := by
  simp only [WinDisplay.extractDescText]
  rw [if_neg (by decide)]
  rw [show (pySlice descAcute 5 18).takeWhile (fun b => !(b == 0x0A)) =
      0xC3 :: 0xA9 :: List.replicate 11 32 from by decide]
  rw [utf8_c3a9, utf8_ascii (by decide)]
  decide

/-!
Claim C4.
-/

/-- C4 counterexample: the canonical decoder never extracts a descriptor
string at all (it raises `ValueError` before the descriptor loop, shown on
`edidC4`); and the Windows helper decodes UTF-8 with undecodable bytes
ignored, not ASCII with invalid bytes ignored: on the descriptor whose
payload is the UTF-8 bytes 0xC3 0xA9 it returns `"é"`, while the claimed
ASCII rule (`claimDescText`) drops both bytes and yields an absent
result. -/
theorem claim_C4_counterexample :
    Edid.parse_edid edidC4 = .error .valueError ∧
    WinDisplay.extractDescText descAcute WinDisplay.nameMarker = some "é" ∧
    WinDisplay.claimDescText descAcute = none ∧
    ¬ (some "é" : Option String) = none :=
  ⟨by decide, extract_descAcute, by decide, by simp⟩

/-- C4 (corrected): the canonical decoder never extracts any descriptor
string (it raises `ValueError` at `module.year` on every input of length at
least 0x12); the Windows `_extract_descriptor_text` — for any 4-byte
marker, hence for both the serial (0xFF) and name (0xFC) markers — takes
bytes [5:18) truncated at the first 0x0A byte and decodes them as UTF-8
with undecodable bytes ignored, which agrees with the originally claimed
ASCII-with-invalid-bytes-ignored rule exactly when the truncated payload is
pure ASCII (and diverges otherwise, as the counterexample shows). -/
theorem claim_C4 :
    (∀ e : ByteStr, 0x12 ≤ e.length → Edid.parse_edid e = .error .valueError) ∧
    (∀ (d mk : ByteStr),
        (∀ b ∈ (pySlice d 5 18).takeWhile (fun b => !(b == 0x0A)), b < 128) →
        WinDisplay.extractDescText d mk =
          if pySlice d 0 4 = mk then WinDisplay.claimDescText d else none) ∧
    WinDisplay.extractDescText descAcute WinDisplay.nameMarker = some "é" ∧
    WinDisplay.claimDescText descAcute = none := by
  refine ⟨parse_valueError, ?_, extract_descAcute, by decide⟩
  intro d mk hsub
  have hfilter : ((pySlice d 5 18).takeWhile fun b => !(b == 0x0A)).filter (· < 128)
      = (pySlice d 5 18).takeWhile fun b => !(b == 0x0A) := by
    rw [List.filter_eq_self]
    intro a ha
    simpa using hsub a ha
  by_cases hm : pySlice d 0 4 = mk
  · simp only [WinDisplay.extractDescText, WinDisplay.claimDescText]
    rw [if_neg (not_not_intro hm), if_pos hm, utf8_ascii hsub, hfilter]
  · simp only [WinDisplay.extractDescText, WinDisplay.claimDescText]
    rw [if_pos hm, if_neg hm]

/-- C4 witness: the general raising statement applied to `edidC4`, and the
ASCII-agreement statement applied to the name descriptor of `edidC4` with
the serial and name markers. -/
theorem claim_C4_witness :
    Edid.parse_edid edidC4 = .error .valueError ∧
    WinDisplay.extractDescText descC4 WinDisplay.nameMarker =
      (if pySlice descC4 0 4 = WinDisplay.nameMarker
       then WinDisplay.claimDescText descC4 else none) ∧
    WinDisplay.extractDescText descC4 WinDisplay.serialMarker =
      (if pySlice descC4 0 4 = WinDisplay.serialMarker
       then WinDisplay.claimDescText descC4 else none) :=
  ⟨claim_C4.1 edidC4 (by decide),
   claim_C4.2.1 descC4 WinDisplay.nameMarker (by decide),
   claim_C4.2.1 descC4 WinDisplay.serialMarker (by decide)⟩

/-!
Claim C5.
-/

lemma pciSegRoot_eval (ds : List Char) (hne : ¬ ds.isEmpty = true)
    (hd : ∀ c ∈ ds, c.isDigit) :
    WinCommon.pciSegRoot ("PCIROOT(".data ++ ds ++ [')']) = some (charsToDec ds) := by
  simp only [WinCommon.pciSegRoot]
  rw [show ("PCIROOT(".data ++ ds ++ [')']).take 8 = "PCIROOT(".data from rfl]
  rw [if_pos rfl]
  rw [show ("PCIROOT(".data ++ ds ++ [')']).drop 8 = ds ++ [')'] from rfl]
  rw [takeWhile_append_all [')'] hd]
  rw [show List.takeWhile Char.isDigit [')'] = [] from rfl, List.append_nil]
  rw [if_neg hne]
  rw [List.drop_left]
  rfl

lemma pciSegPci_eval (hs : List Char) (hne : ¬ hs.isEmpty = true)
    (hd : ∀ c ∈ hs, isHexDig c) :
    WinCommon.pciSegPci ("PCI(".data ++ hs ++ [')']) = some (charsToHex hs) := by
  simp only [WinCommon.pciSegPci]
  rw [show ("PCI(".data ++ hs ++ [')']).take 4 = "PCI(".data from rfl]
  rw [if_pos rfl]
  rw [show ("PCI(".data ++ hs ++ [')']).drop 4 = hs ++ [')'] from rfl]
  rw [takeWhile_append_all [')'] hd]
  rw [show List.takeWhile isHexDig [')'] = [] from rfl, List.append_nil]
  rw [if_neg hne]
  rw [List.drop_left]
  rfl

lemma pciSegRoot_pci_none (hs : List Char) :
    WinCommon.pciSegRoot ("PCI(".data ++ hs ++ [')']) = none := by
  simp only [WinCommon.pciSegRoot]
  rw [if_neg]
  intro heq
  have heq2 : 'P' :: 'C' :: 'I' :: '(' :: ((hs ++ [')']).take 4)
      = ['P', 'C', 'I', 'R', 'O', 'O', 'T', '('] := heq
  simp at heq2

lemma pciSegRoot_usb_none (s : List Char) :
    WinCommon.pciSegRoot ('U' :: 'S' :: 'B' :: '(' :: s) = none := by
  simp only [WinCommon.pciSegRoot]
  rw [if_neg]
  intro heq
  have heq2 : 'U' :: 'S' :: 'B' :: '(' :: (s.take 4)
      = ['P', 'C', 'I', 'R', 'O', 'O', 'T', '('] := heq
  simp at heq2

lemma pciSegPci_usb_none (s : List Char) :
    WinCommon.pciSegPci ('U' :: 'S' :: 'B' :: '(' :: s) = none := by
  simp only [WinCommon.pciSegPci]
  rw [if_neg]
  intro heq
  have heq2 : (['U', 'S', 'B', '('] : List Char) = ['P', 'C', 'I', '('] := heq
  simp at heq2

/-- C5 counterexample: a `USB(<4-hex>)` segment is not mapped to
`Usb(0x1,0x0)` as claimed; it is silently dropped. -/
theorem claim_C5_counterexample :
    WinCommon.format_pci_path "PCIROOT(0)#USB(0100)" = some "PciRoot(0x0)" ∧
    some "PciRoot(0x0)" ≠ some "PciRoot(0x0)/Usb(0x1,0x0)" :=
  ⟨by decide, by decide⟩

/-- C5 (corrected): `format_pci_path` splits on `#` and maps
`PCIROOT(<digits>)` to `PciRoot(0x{n:X})` and `PCI(<hex digits>)` to
`Pci(0x{v >> 8:X},0x{v &&& 0xFF:X})`, joining the emitted parts with `/`;
`USB(...)` segments (and all other unrecognized segments) are skipped
silently rather than being mapped; the claim's concrete example holds. -/
theorem claim_C5 :
    (∀ ds : List Char, ¬ ds.isEmpty = true → (∀ c ∈ ds, c.isDigit) →
        WinCommon.formatSegment ("PCIROOT(".data ++ ds ++ [')']) =
          some ("PciRoot(0x" ++ String.mk (natToHexU (charsToDec ds)) ++ ")")) ∧
    (∀ hs : List Char, ¬ hs.isEmpty = true → (∀ c ∈ hs, isHexDig c) →
        WinCommon.formatSegment ("PCI(".data ++ hs ++ [')']) =
          some ("Pci(0x" ++ String.mk (natToHexU (charsToHex hs >>> 8)) ++
                ",0x" ++ String.mk (natToHexU (charsToHex hs &&& 0xFF)) ++ ")")) ∧
    (∀ s : List Char, WinCommon.formatSegment ('U' :: 'S' :: 'B' :: '(' :: s) = none) ∧
    WinCommon.format_pci_path "PCIROOT(0)#PCI(1D00)" = some "PciRoot(0x0)/Pci(0x1D,0x0)" := by
  refine ⟨?_, ?_, ?_, by decide⟩
  · intro ds hne hd
    unfold WinCommon.formatSegment
    rw [pciSegRoot_eval ds hne hd]
  · intro hs hne hd
    unfold WinCommon.formatSegment
    rw [pciSegRoot_pci_none hs, pciSegPci_eval hs hne hd]
  · intro s
    unfold WinCommon.formatSegment
    rw [pciSegRoot_usb_none s, pciSegPci_usb_none s]

/-- C5 witness: the two mapped segment forms of the claim's example and a
skipped `USB(0100)` segment. -/
theorem claim_C5_witness :
    WinCommon.formatSegment ("PCIROOT(".data ++ ['0'] ++ [')']) =
      some ("PciRoot(0x" ++ String.mk (natToHexU (charsToDec ['0'])) ++ ")") ∧
    WinCommon.formatSegment ("PCI(".data ++ ['1', 'D', '0', '0'] ++ [')']) =
      some ("Pci(0x" ++ String.mk (natToHexU (charsToHex ['1', 'D', '0', '0'] >>> 8)) ++
            ",0x" ++ String.mk (natToHexU (charsToHex ['1', 'D', '0', '0'] &&& 0xFF)) ++ ")") ∧
    WinCommon.formatSegment ('U' :: 'S' :: 'B' :: '(' :: "0100)".data) = none :=
  ⟨claim_C5.1 ['0'] (by decide) (by decide),
   claim_C5.2.1 ['1', 'D', '0', '0'] (by decide) (by decide),
   claim_C5.2.2.1 "0100)".data⟩

/-!
Claim C7.
-/

lemma findAcpi_nil : WinCommon.findAcpi [] = [] := by
  rw [WinCommon.findAcpi]

lemma findAcpi_skip (c : Char) (cs : List Char)
    (h : ¬ (c :: cs).take 5 = WinCommon.acpiTag) :
    WinCommon.findAcpi (c :: cs) = WinCommon.findAcpi cs := by
  conv_lhs => rw [WinCommon.findAcpi.eq_def]
  dsimp only
  rw [if_neg h]

lemma grabParen_eval (name rest : List Char)
    (h1 : ∀ c ∈ name, ¬ c = ')' ∧ ¬ c = '\n') :
    WinCommon.grabParen (name ++ ')' :: rest) = some (name, rest) := by
  simp only [WinCommon.grabParen]
  have hContent : (name ++ ')' :: rest).takeWhile (fun c => !(c == ')' || c == '\n'))
      = name := by
    rw [takeWhile_append_all (')' :: rest) (fun c hc => by
      obtain ⟨hc1, hc2⟩ := h1 c hc
      simp [hc1, hc2])]
    rw [show List.takeWhile (fun c => !(c == ')' || c == '\n')) (')' :: rest) = [] from by
      simp [List.takeWhile_cons]]
    exact List.append_nil name
  rw [hContent, List.drop_left]
  rfl

lemma findAcpi_match (name rest : List Char)
    (h1 : ∀ c ∈ name, ¬ c = ')' ∧ ¬ c = '\n') :
    WinCommon.findAcpi (WinCommon.acpiTag ++ name ++ ')' :: rest) =
      name :: WinCommon.findAcpi rest := by
  have hshape : WinCommon.acpiTag ++ name ++ ')' :: rest =
      'A' :: 'C' :: 'P' :: 'I' :: '(' :: (name ++ ')' :: rest) := rfl
  rw [hshape]
  conv_lhs => rw [WinCommon.findAcpi.eq_def]
  dsimp only
  rw [if_pos (show ('A' :: 'C' :: 'P' :: 'I' :: '(' :: (name ++ ')' :: rest)).take 5
      = WinCommon.acpiTag from rfl)]
  split
  · next content rest' hg =>
    rw [show ('A' :: 'C' :: 'P' :: 'I' :: '(' :: (name ++ ')' :: rest)).drop 5
        = name ++ ')' :: rest from rfl, grabParen_eval name rest h1] at hg
    simp only [Option.some.injEq, Prod.mk.injEq] at hg
    obtain ⟨rfl, rfl⟩ := hg
    rfl
  · next hg =>
    rw [show ('A' :: 'C' :: 'P' :: 'I' :: '(' :: (name ++ ')' :: rest)).drop 5
        = name ++ ')' :: rest from rfl, grabParen_eval name rest h1] at hg
    exact absurd hg (by simp)

lemma findAcpi_example :
    WinCommon.findAcpi "ACPI(_SB_)#ACPI(PCI0)".data =
      [['_', 'S', 'B', '_'], ['P', 'C', 'I', '0']] := by
  rw [show "ACPI(_SB_)#ACPI(PCI0)".data =
      WinCommon.acpiTag ++ ['_', 'S', 'B', '_'] ++ ')' :: ('#' :: "ACPI(PCI0)".data)
      from rfl]
  rw [findAcpi_match _ _ (by decide)]
  rw [findAcpi_skip '#' _ (by decide)]
  rw [show "ACPI(PCI0)".data =
      WinCommon.acpiTag ++ ['P', 'C', 'I', '0'] ++ ')' :: ([] : List Char) from rfl]
  rw [findAcpi_match _ _ (by decide)]
  rw [findAcpi_nil]

lemma findAcpi_usb_nil : WinCommon.findAcpi "USB(ROOT)".data = [] := by
  simp [WinCommon.findAcpi, WinCommon.grabParen, WinCommon.acpiTag]

lemma findAcpi_hello_nil : WinCommon.findAcpi "hello".data = [] := by
  simp [WinCommon.findAcpi, WinCommon.grabParen, WinCommon.acpiTag]

/-- C7 counterexample: `USB(name)` groups are not collected by
`format_acpi_path`; with no `ACPI(...)` match the raw string comes back
unchanged instead of `"\ROOT"`. -/
theorem claim_C7_counterexample :
    WinCommon.format_acpi_path "USB(ROOT)" = some "USB(ROOT)" ∧
    some "USB(ROOT)" ≠ some "\\ROOT" := by
  constructor
  · simp only [WinCommon.format_acpi_path]
    rw [if_neg (by decide), findAcpi_usb_nil, if_pos rfl]
  · decide

/-- C7 (corrected): `format_acpi_path` collects only `ACPI(name)` bracket
contents (not `USB(name)`), scanning the whole raw string left to right —
each `ACPI(` followed by a newline-free name and `)` contributes its name,
any other character is skipped — joins them with `.` behind a single
backslash; with no match the raw string is returned unchanged, and the
empty string gives an absent result; the claim's example holds. -/
theorem claim_C7 :
    (∀ (name rest : List Char), (∀ c ∈ name, ¬ c = ')' ∧ ¬ c = '\n') →
        WinCommon.findAcpi (WinCommon.acpiTag ++ name ++ ')' :: rest) =
          name :: WinCommon.findAcpi rest) ∧
    (∀ (c : Char) (cs : List Char), ¬ (c :: cs).take 5 = WinCommon.acpiTag →
        WinCommon.findAcpi (c :: cs) = WinCommon.findAcpi cs) ∧
    (∀ raw : String, ¬ raw = "" → WinCommon.findAcpi raw.data = [] →
        WinCommon.format_acpi_path raw = some raw) ∧
    WinCommon.format_acpi_path "" = none ∧
    (∀ raw : String, ¬ raw = "" → ¬ WinCommon.findAcpi raw.data = [] →
        WinCommon.format_acpi_path raw =
          some ("\\" ++ String.intercalate "."
            ((WinCommon.findAcpi raw.data).map String.mk))) ∧
    WinCommon.format_acpi_path "ACPI(_SB_)#ACPI(PCI0)" = some "\\_SB_.PCI0" := by
  refine ⟨findAcpi_match, findAcpi_skip, ?_, rfl, ?_, ?_⟩
  · intro raw h1 h2
    simp only [WinCommon.format_acpi_path]
    rw [if_neg h1, h2, if_pos rfl]
  · intro raw h1 h2
    simp only [WinCommon.format_acpi_path]
    rw [if_neg h1, if_neg h2]
  · simp only [WinCommon.format_acpi_path]
    rw [if_neg (by decide), findAcpi_example, if_neg (by decide)]
    decide

/-- C7 witness: one `ACPI(...)` match at the head of the example string, a
skipped `#` separator, and the fallback on a string with no match. -/
theorem claim_C7_witness :
    WinCommon.findAcpi (WinCommon.acpiTag ++ ['_', 'S', 'B', '_'] ++ ')' ::
        ('#' :: "ACPI(PCI0)".data)) =
      ['_', 'S', 'B', '_'] :: WinCommon.findAcpi ('#' :: "ACPI(PCI0)".data) ∧
    WinCommon.format_acpi_path "hello" = some "hello" ∧
    WinCommon.format_acpi_path "ACPI(_SB_)#ACPI(PCI0)" = some "\\_SB_.PCI0" :=
  ⟨claim_C7.1 ['_', 'S', 'B', '_'] ('#' :: "ACPI(PCI0)".data) (by decide),
   claim_C7.2.2.1 "hello" (by decide) findAcpi_hello_nil,
   claim_C7.2.2.2.2.2⟩

/-!
Sortedness of the reverse-sorted path components, and the shape of the
address components, for claim C6.
-/

lemma charListLt_asymm (a : List Char) : ∀ b : List Char,
    LinuxCommon.charListLt a b = true → LinuxCommon.charListLt b a = false := by
  induction a with
  | nil =>
    intro b h
    cases b with
    | nil => simp [LinuxCommon.charListLt] at h
    | cons y ys => simp [LinuxCommon.charListLt]
  | cons x xs ih =>
    intro b h
    cases b with
    | nil => simp [LinuxCommon.charListLt] at h
    | cons y ys =>
      rw [LinuxCommon.charListLt] at h ⊢
      by_cases h1 : x.toNat < y.toNat
      · rw [if_neg (by omega), if_pos h1]
      · rw [if_neg h1] at h
        by_cases h2 : y.toNat < x.toNat
        · rw [if_pos h2] at h
          exact absurd h (by simp)
        · rw [if_neg h2] at h
          rw [if_neg h2, if_neg h1]
          exact ih ys h

lemma pyStrLt_asymm (a b : String) (h : LinuxCommon.pyStrLt a b = true) :
    LinuxCommon.pyStrLt b a = false :=
  charListLt_asymm a.data b.data h

lemma chain_insertDesc (x : String) (l : List String)
    (h : l.Chain' fun a b => LinuxCommon.pyStrLt a b = false) :
    (LinuxCommon.insertDesc x l).Chain' fun a b => LinuxCommon.pyStrLt a b = false := by
  induction l with
  | nil => simp [LinuxCommon.insertDesc]
  | cons y ys ih =>
    rw [LinuxCommon.insertDesc]
    by_cases hyx : LinuxCommon.pyStrLt y x = true
    · rw [if_pos hyx]
      exact List.chain'_cons.mpr ⟨pyStrLt_asymm y x hyx, h⟩
    · rw [if_neg hyx]
      have hyx2 : LinuxCommon.pyStrLt y x = false := by
        cases hb : LinuxCommon.pyStrLt y x
        · rfl
        · exact absurd hb hyx
      cases ys with
      | nil =>
        rw [LinuxCommon.insertDesc]
        exact List.chain'_cons.mpr ⟨hyx2, List.chain'_singleton x⟩
      | cons y2 ys2 =>
        rw [LinuxCommon.insertDesc]
        obtain ⟨hyy2, htail⟩ := List.chain'_cons.mp h
        by_cases hy2x : LinuxCommon.pyStrLt y2 x = true
        · rw [if_pos hy2x]
          exact List.chain'_cons.mpr ⟨hyx2,
            List.chain'_cons.mpr ⟨pyStrLt_asymm y2 x hy2x, htail⟩⟩
        · rw [if_neg hy2x]
          have hrec := ih htail
          rw [LinuxCommon.insertDesc, if_neg hy2x] at hrec
          exact List.chain'_cons.mpr ⟨hyy2, hrec⟩

lemma sortRevPy_chain (l : List String) :
    (LinuxCommon.sortRevPy l).Chain' fun a b => LinuxCommon.pyStrLt a b = false := by
  suffices h : ∀ acc : List String,
      acc.Chain' (fun a b => LinuxCommon.pyStrLt a b = false) →
      (l.foldl (fun acc x => LinuxCommon.insertDesc x acc) acc).Chain'
        (fun a b => LinuxCommon.pyStrLt a b = false) from
    h [] List.chain'_nil
  induction l with
  | nil => intro acc hacc; exact hacc
  | cons x xs ih =>
    intro acc hacc
    rw [List.foldl_cons]
    exact ih _ (chain_insertDesc x acc hacc)

lemma splitOnChar_ne_nil (sep : Char) (l : List Char) : ¬ splitOnChar sep l = [] := by
  induction l with
  | nil => simp [splitOnChar]
  | cons c cs ih =>
    simp only [splitOnChar]
    by_cases hc : (c == sep) = true
    · rw [if_pos hc]
      simp
    · rw [if_neg hc]
      cases hr : splitOnChar sep cs <;> simp

lemma getAddressComponents_shape (s : String) (comps : List String)
    (h : LinuxCommon.getAddressComponents s = some comps) :
    ∃ parts : List Int, ¬ parts = [] ∧ comps = parts.map LinuxCommon.pyHexInt := by
  simp only [LinuxCommon.getAddressComponents] at h
  cases hl : (splitOnChar ':' s.data).getLast? with
  | none =>
    rw [hl] at h
    exact Option.noConfusion h
  | some device_func =>
    rw [hl] at h
    dsimp only at h
    by_cases hall : ((splitOnChar '.' device_func).map fun p =>
        LinuxCommon.pyIntHex (String.mk p)).all Option.isSome = true
    · rw [if_pos hall] at h
      injection h with h
      refine ⟨(splitOnChar '.' device_func).map
        (fun p => (LinuxCommon.pyIntHex (String.mk p)).getD 0), ?_, ?_⟩
      · intro hnil
        exact splitOnChar_ne_nil '.' device_func (List.map_eq_nil_iff.mp hnil)
      · rw [← h, List.map_map, List.map_map]
        rfl
    · rw [if_neg hall] at h
      exact Option.noConfusion h

/-!
Claim C6.
-/

/-- C6 counterexample: the Windows formatters break the claimed invariants
through their fallbacks — a raw string whose first recognized segment is
`PCI(...)` yields a pci path not rooted at `PciRoot(`, and a raw string
with no `ACPI(...)` group yields an acpi path with no leading backslash —
and the Linux backend breaks them too: a uevent without a `pci_slot_name=`
line gives a present-but-empty pci field, a slot with no `.`-separated
function part gives a `/Pci(0x2)` segment that is not a  `0xD,0xF` pair,
and a device at address `0x4,0x0` behind the bridge `0x2,0x0` is emitted
before its parent (reverse-lexicographic order, not root-to-leaf). -/
theorem claim_C6_counterexample :
    WinCommon.format_pci_path "PCI(1D00)" = some "Pci(0x1D,0x0)" ∧
    ¬ "Pci(0x1D,0x0)".data.take 8 = "PciRoot(".data ∧
    WinCommon.format_acpi_path "hello" = some "hello" ∧
    ¬ "hello".data.head? = some '\\' ∧
    LinuxCommon.pci_from_acpi_linux envNoSlot "/dev0" =
      (some "\\_SB_.PCI0", some "") ∧
    LinuxCommon.pci_from_acpi_linux envOneComp "/dev0" =
      (some "\\_SB_.PCI0", some "PciRoot(0x0)/Pci(0x2)") ∧
    ¬ ',' ∈ "PciRoot(0x0)/Pci(0x2)".data ∧
    LinuxCommon.pci_from_acpi_linux envLeaf "/dev0" =
      (some "\\_SB_.PCI0", some "PciRoot(0x0)/Pci(0x4,0x0)/Pci(0x2,0x0)") := by
  refine ⟨by decide, by decide, ?_, by decide, by decide, by decide, by decide, by decide⟩
  simp only [WinCommon.format_acpi_path]
  rw [if_neg (by decide), findAcpi_hello_nil, if_pos rfl]

/-- C6 (corrected): the Linux backend's pci field, when present and
nonempty, is `PciRoot(<hex domain>)` followed by one `/Pci(c)` segment per
collected address, where every address `c` is a comma-join of one or more
`hex(...)` components (not always a device,function pair) and the segments
are emitted in descending lexicographic order of their component strings
(not necessarily root-to-leaf); the Windows `format_acpi_path` output is a
single backslash followed by dot-joined names whenever at least one
`ACPI(...)` group matches. -/
theorem claim_C6 :
    (∀ (env : LinuxCommon.SysEnv) (dp : String) (s : String),
        (LinuxCommon.pci_from_acpi_linux env dp).2 = some s → ¬ s = "" →
        ∃ (d : Int) (paths : List String),
          s = (LinuxCommon.sortRevPy paths).foldl
                (fun acc comp => acc ++ "/Pci(" ++ comp ++ ")")
                ("PciRoot(" ++ LinuxCommon.pyHexInt d ++ ")") ∧
          ∀ comp ∈ paths, ∃ parts : List Int,
            ¬ parts = [] ∧
            comp = String.intercalate "," (parts.map LinuxCommon.pyHexInt)) ∧
    (∀ l : List String,
        (LinuxCommon.sortRevPy l).Chain' fun a b => LinuxCommon.pyStrLt a b = false) ∧
    (∀ raw : String, ¬ raw = "" → ¬ WinCommon.findAcpi raw.data = [] →
        WinCommon.format_acpi_path raw =
          some ("\\" ++ String.intercalate "."
            ((WinCommon.findAcpi raw.data).map String.mk))) := by
  refine ⟨?_, sortRevPy_chain, ?_⟩
  · intro env dp s h hne
    simp only [LinuxCommon.pci_from_acpi_linux] at h
    cases hA : env.readFile (LinuxCommon.pyJoin (LinuxCommon.pyJoin dp "firmware_node") "path") with
    | none =>
      rw [hA] at h
      cases hU : env.readFile (LinuxCommon.pyJoin dp "uevent") <;> rw [hU] at h <;> simp at h
    | some araw =>
      rw [hA] at h
      cases hU : env.readFile (LinuxCommon.pyJoin dp "uevent") with
      | none => rw [hU] at h; simp at h
      | some uraw =>
        rw [hU] at h
        dsimp only at h
        by_cases hE : pyStrip araw = "" ∨ pyStrip uraw = ""
        · rw [if_pos hE] at h; simp at h
        · rw [if_neg hE] at h
          cases hS : LinuxCommon.findSlot (pyStrip uraw) with
          | none =>
            rw [hS] at h
            dsimp only at h
            injection h with h
            exact absurd h.symm hne
          | some slot =>
            rw [hS] at h
            dsimp only at h
            cases hD : LinuxCommon.pyIntHex
                (String.mk ((splitOnChar ':' slot.data).headD [])) with
            | none =>
              rw [hD] at h
              dsimp only at h
              injection h with h
              exact absurd h.symm hne
            | some domain =>
              rw [hD] at h
              dsimp only at h
              injection h with h
              refine ⟨domain, _, h.symm, ?_⟩
              intro comp hc
              rcases List.mem_append.mp hc with hc | hc
              · revert hc
                cases hgac : LinuxCommon.getAddressComponents slot with
                | none =>
                  intro hc
                  exact absurd hc (by simp)
                | some comps =>
                  intro hc
                  have hcomp := List.mem_singleton.mp hc
                  obtain ⟨parts, hnp, hcs⟩ := getAddressComponents_shape slot comps hgac
                  exact ⟨parts, hnp, by rw [hcomp, hcs]⟩
              · revert hc
                cases hld : env.listDir LinuxCommon.pciRootDir with
                | none =>
                  intro hc
                  exact absurd hc (by simp)
                | some names =>
                  intro hc
                  obtain ⟨nm, hnm, hf⟩ := List.mem_filterMap.mp hc
                  revert hf
                  cases hld2 : env.listDir (LinuxCommon.pyJoin LinuxCommon.pciRootDir nm) with
                  | none =>
                    intro hf
                    exact Option.noConfusion hf
                  | some entries =>
                    intro hf
                    dsimp only at hf
                    by_cases hin : slot ∈ entries
                    · rw [if_pos hin] at hf
                      revert hf
                      cases hgac : LinuxCommon.getAddressComponents nm with
                      | none =>
                        intro hf
                        exact Option.noConfusion hf
                      | some comps =>
                        intro hf
                        injection hf with hf
                        obtain ⟨parts, hnp, hcs⟩ := getAddressComponents_shape nm comps hgac
                        exact ⟨parts, hnp, by rw [← hf, hcs]⟩
                    · rw [if_neg hin] at hf
                      exact Option.noConfusion hf
  · intro raw h1 h2
    simp only [WinCommon.format_acpi_path]
    rw [if_neg h1, if_neg h2]

/-- C6 witness: the Linux shape applied to the `envGfx` environment
(slot `0000:00:02.0`, producing `PciRoot(0x0)/Pci(0x2,0x0)`), and the
Windows acpi shape applied to the claim's example string. -/
theorem claim_C6_witness :
    (∃ (d : Int) (paths : List String),
        "PciRoot(0x0)/Pci(0x2,0x0)" =
          (LinuxCommon.sortRevPy paths).foldl
            (fun acc comp => acc ++ "/Pci(" ++ comp ++ ")")
            ("PciRoot(" ++ LinuxCommon.pyHexInt d ++ ")") ∧
        ∀ comp ∈ paths, ∃ parts : List Int,
          ¬ parts = [] ∧
          comp = String.intercalate "," (parts.map LinuxCommon.pyHexInt)) ∧
    WinCommon.format_acpi_path "ACPI(_SB_)#ACPI(PCI0)" =
      some ("\\" ++ String.intercalate "."
        ((WinCommon.findAcpi "ACPI(_SB_)#ACPI(PCI0)".data).map String.mk)) :=
  ⟨claim_C6.1 envGfx "/dev0" "PciRoot(0x0)/Pci(0x2,0x0)" (by decide) (by decide),
   claim_C6.2.2 "ACPI(_SB_)#ACPI(PCI0)" (by decide)
     (by rw [findAcpi_example]; simp)⟩
